import Mathlib

/-!
Verification of the Sprouts/Aepos proof-of-stake consensus core.

The Go source is shallowly embedded: Go `uint64`/`uint32` arithmetic becomes
`Nat` arithmetic reduced modulo `2^64`/`2^32`, `math/big.Int` becomes `Int`
(with `Int.ediv`, which matches `big.Int.Div`'s Euclidean semantics), byte
slices become `List Nat`, and fallible functions return `Except`/`Option`.
All recursion is structural (fuel-based where the Go loop is not), so every
definition evaluates by kernel reduction on concrete inputs.
-/

/-- Go `uint64` reduction: the value of an expression stored in a `uint64`. -/
def u64 (x : Nat) : Nat := x % 18446744073709551616

/-- Go `uint32` reduction. -/
def u32 (x : Nat) : Nat := x % 4294967296

/-- Go `uint64` subtraction `a - b` (two's-complement wraparound). -/
def sub64 (a b : Nat) : Nat :=
  (a % 18446744073709551616 + (18446744073709551616 - b % 18446744073709551616)) %
    18446744073709551616

/-- Go `big.Int.Uint64()`: the low 64 bits of the absolute value (this is what
the reference implementation returns when the value does not fit). -/
def goUint64 (x : Int) : Nat := x.natAbs % 18446744073709551616

/-- Fuel-driven big-endian byte expansion; `fuel ≥ n` always suffices. -/
def beBytesAux : Nat → Nat → List Nat
  | 0, _ => []
  | fuel + 1, n => if n = 0 then [] else beBytesAux fuel (n / 256) ++ [n % 256]

/-- Go `big.Int.Bytes()`: minimal big-endian bytes of the absolute value; the
zero value gives the empty slice. -/
def beBytes (n : Nat) : List Nat := beBytesAux (n + 1) n

/-- Go `big.Int.SetBytes`: interpret bytes as a big-endian natural number. -/
def beToNat (l : List Nat) : Nat := l.foldl (fun a b => a * 256 + b) 0

/-- Fuel-driven decimal digit expansion (ASCII codes), `fuel ≥ n` suffices. -/
def decDigitsAux : Nat → Nat → List Nat
  | 0, _ => []
  | fuel + 1, n => if n < 10 then [n + 48] else decDigitsAux fuel (n / 10) ++ [n % 10 + 48]

/-- Go `strconv.FormatUint(n, 10)` as ASCII bytes. -/
def asciiDec (n : Nat) : List Nat := decDigitsAux (n + 1) n

/-- Go `binary.LittleEndian.Uint32` of the first four bytes. -/
def leUint32 (l : List Nat) : Nat :=
  l.getD 0 0 + l.getD 1 0 * 256 + l.getD 2 0 * 65536 + l.getD 3 0 * 16777216

/-- Rotate a 32-bit word right by `r` positions. -/
def rotr32 (r x : Nat) : Nat := (x >>> r) ||| u32 (x <<< (32 - r))

/-- Round constants of SHA-256 (FIPS 180-4), written in decimal. -/
def k256 : List Nat :=
  [1116352408, 1899447441, 3049323471, 3921009573, 961987163, 1508970993,
   2453635748, 2870763221, 3624381080, 310598401, 607225278, 1426881987,
   1925078388, 2162078206, 2614888103, 3248222580, 3835390401, 4022224774,
   264347078, 604807628, 770255983, 1249150122, 1555081692, 1996064986,
   2554220882, 2821834349, 2952996808, 3210313671, 3336571891, 3584528711,
   113926993, 338241895, 666307205, 773529912, 1294757372, 1396182291,
   1695183700, 1986661051, 2177026350, 2456956037, 2730485921, 2820302411,
   3259730800, 3345764771, 3516065817, 3600352804, 4094571909, 275423344,
   430227734, 506948616, 659060556, 883997877, 958139571, 1322822218,
   1537002063, 1747873779, 1955562222, 2024104815, 2227730452, 2361852424,
   2428436474, 2756734187, 3204031479, 3329325298]

/-- Initial hash state of SHA-256, written in decimal. -/
def h256 : List Nat :=
  [1779033703, 3144134277, 1013904242, 2773480762,
   1359893119, 2600822924, 528734635, 1541459225]

/-- Group bytes into big-endian 32-bit words (groups of four). -/
def toWordsBE : List Nat → List Nat
  | b0 :: b1 :: b2 :: b3 :: rest => (((b0 * 256 + b1) * 256 + b2) * 256 + b3) :: toWordsBE rest
  | _ => []

/-- A 64-bit length as eight big-endian bytes. -/
def beBytes8 (n : Nat) : List Nat :=
  [n >>> 56 % 256, n >>> 48 % 256, n >>> 40 % 256, n >>> 32 % 256,
   n >>> 24 % 256, n >>> 16 % 256, n >>> 8 % 256, n % 256]

/-- SHA-256 padding: append `0x80`, zeros to 56 mod 64, then the bit length. -/
def shaPad (msg : List Nat) : List Nat :=
  let L := msg.length
  let padLen := (119 - L % 64) % 64
  msg ++ [128] ++ List.replicate padLen 0 ++ beBytes8 (8 * L)

/-- Split a byte list into 64-byte chunks (fuel = list length suffices). -/
def chunks64 : Nat → List Nat → List (List Nat)
  | 0, _ => []
  | _, [] => []
  | fuel + 1, l => l.take 64 :: chunks64 fuel (l.drop 64)

/-- Extend the 16 message words to 64 schedule words. -/
def schedExtend : Nat → List Nat → List Nat
  | 0, ws => ws
  | fuel + 1, ws =>
    let ℓ := ws.length
    let w15 := ws.getD (ℓ - 15) 0
    let w2 := ws.getD (ℓ - 2) 0
    let s0 := (rotr32 7 w15) ^^^ (rotr32 18 w15) ^^^ (w15 >>> 3)
    let s1 := (rotr32 17 w2) ^^^ (rotr32 19 w2) ^^^ (w2 >>> 10)
    schedExtend fuel (ws ++ [u32 (ws.getD (ℓ - 16) 0 + s0 + ws.getD (ℓ - 7) 0 + s1)])

/-- One SHA-256 round: state is `[a,b,c,d,e,f,g,h]`, input is `(kᵢ, wᵢ)`. -/
def shaRound (st : List Nat) (kw : Nat × Nat) : List Nat :=
  let a := st.getD 0 0
  let b := st.getD 1 0
  let c := st.getD 2 0
  let d := st.getD 3 0
  let e := st.getD 4 0
  let f := st.getD 5 0
  let g := st.getD 6 0
  let h := st.getD 7 0
  let s1 := (rotr32 6 e) ^^^ (rotr32 11 e) ^^^ (rotr32 25 e)
  let ch := (e &&& f) ^^^ ((e ^^^ 4294967295) &&& g)
  let t1 := u32 (h + s1 + ch + kw.1 + kw.2)
  let s0 := (rotr32 2 a) ^^^ (rotr32 13 a) ^^^ (rotr32 22 a)
  let mj := (a &&& b) ^^^ (a &&& c) ^^^ (b &&& c)
  let t2 := u32 (s0 + mj)
  [u32 (t1 + t2), a, b, c, u32 (d + t1), e, f, g]

/-- Compress one 64-byte block into the running hash state. -/
def shaBlock (st : List Nat) (block : List Nat) : List Nat :=
  let ws := schedExtend 48 (toWordsBE block)
  let fin := (k256.zip ws).foldl shaRound st
  (st.zip fin).map fun p => u32 (p.1 + p.2)

/-- A 32-bit word as four big-endian bytes. -/
def wordBE (w : Nat) : List Nat := [w >>> 24 % 256, w >>> 16 % 256, w >>> 8 % 256, w % 256]

/-- SHA-256 of a byte list, as the 32 digest bytes. -/
def sha256 (msg : List Nat) : List Nat :=
  let padded := shaPad msg
  ((chunks64 padded.length padded).foldl shaBlock h256).flatMap wordBE

/-! ## Consensus data model and global constants -/

/-- The header fields the kernel and difficulty computations read. `time` and
`number` model `big.Int` values of chain headers (always non-negative in Go);
`difficulty` models the `big.Int` difficulty. -/
structure KHeader where
  number : Nat
  time : Nat
  difficulty : Int
deriving DecidableEq, Repr

/-- Result triple of `computeKernel`: Go returns `(hash, timestamp, err)`
with `hash = 0`, `timestamp = 0` alongside `errCantFindKernel`. The Go hash
is `new(big.Int).SetBytes(h2)`, i.e. the digest read as a big-endian number. -/
structure KernelResult where
  hash : Nat
  tstamp : Nat
  errK : Bool
deriving DecidableEq, Repr

/-- Chain-global `stakeModifier`, zero from genesis on. -/
def stakeModifier : Nat := 0

/-- One coin in wei, `coinValue = 10^18` (engine constants file). -/
def coinValue : Nat := 1000000000000000000

/-- One coin in cents, `centValue = 10000`. -/
def centValue : Nat := 10000

/-- Aepos `stakeMaxTime = uint64(d)` for `d, _ = time.ParseDuration("2160h")`:
a `time.Duration` counts nanoseconds, so the stored bound is 90 days expressed
in nanoseconds, 7 776 000 000 000 000 — not 7 776 000 seconds. -/
def stakeMaxTime : Nat := 7776000000000000

/-- Sprouts variant `stakeMaxAge = uint64(d)`, the same nanosecond count; it is
used there as the time-weight clamp inside `computeKernel`. -/
def sproutsStakeMaxAge : Nat := 7776000000000000

/-- Aepos `stakeMaxAge = 1 <<< 149`, the coin-age saturation cap. -/
def stakeMaxAge : Int := 713623846352979940529142984724747568191373312

/-- Go `binary.Size(*types.Header)` is `-1` (the struct holds pointers and
slices, which have no fixed binary size); the code converts it with
`uint64(...)`, yielding `2^64 - 1`, and formats that in decimal. -/
def binSizeHeader : Nat := 18446744073709551615

/-- Aepos kernel preimage at offset `t`:
`stakeModifier.Bytes() ++ prev.Time.Bytes() ++ ascii(binary.Size(*header)) ++
ascii(prev.Time.Uint64()) ++ ascii(header.Time.Uint64() - t)`. -/
def aeposPreimage (prev hdr : KHeader) (t : Nat) : List Nat :=
  beBytes stakeModifier ++ beBytes prev.time ++ asciiDec binSizeHeader ++
    asciiDec (u64 prev.time) ++ asciiDec (sub64 (u64 hdr.time) t)

/-- Sprouts kernel preimage at offset `t` (no `ascii(prev.Time)` component). -/
def sproutsPreimage (prev hdr : KHeader) (t : Nat) : List Nat :=
  beBytes stakeModifier ++ beBytes prev.time ++ asciiDec binSizeHeader ++
    asciiDec (sub64 (u64 hdr.time) t)

/-- The double-SHA-256 digest `h2` the Aepos kernel search computes. -/
def aeposDigest (prev hdr : KHeader) (t : Nat) : List Nat :=
  sha256 (sha256 (aeposPreimage prev hdr t))

/-- The double-SHA-256 digest `h2` the Sprouts kernel search computes. -/
def sproutsDigest (prev hdr : KHeader) (t : Nat) : List Nat :=
  sha256 (sha256 (sproutsPreimage prev hdr t))

/-- Aepos time weight at offset `t`: `uint64` subtraction chain
`header.Time.Uint64() - t - prev.Time.Uint64()`, clamped at `stakeMaxTime`. -/
def aeposTimeWeight (prev hdr : KHeader) (t : Nat) : Nat :=
  let tw := sub64 (sub64 (u64 hdr.time) t) (u64 prev.time)
  if tw > stakeMaxTime then stakeMaxTime else tw

/-- Sprouts variant time weight, clamped at its `stakeMaxAge` constant. -/
def sproutsTimeWeight (prev hdr : KHeader) (t : Nat) : Nat :=
  let tw := sub64 (sub64 (u64 hdr.time) t) (u64 prev.time)
  if tw > sproutsStakeMaxAge then sproutsStakeMaxAge else tw

/-- Kernel target: `difficulty * stake * timeWeight / coinValue / 86400`, with
`big.Int.Div` (Euclidean division, `Int.ediv`) applied twice in sequence. -/
def kernelTarget (diff stake : Int) (tw : Nat) : Int :=
  Int.ediv (Int.ediv (diff * stake * tw) coinValue) 86400

/-- Whether the Aepos candidate at offset `t` beats the target:
`binary.LittleEndian.Uint32(h2) < target` (the `Cmp == -1` test). -/
def aeposKernelOk (prev hdr : KHeader) (stake : Int) (t : Nat) : Bool :=
  if (leUint32 (aeposDigest prev hdr t) : Int) <
      kernelTarget hdr.difficulty stake (aeposTimeWeight prev hdr t) then true else false

/-- Whether the Sprouts candidate at offset `t` beats the target. -/
def sproutsKernelOk (prev hdr : KHeader) (stake : Int) (t : Nat) : Bool :=
  if (leUint32 (sproutsDigest prev hdr t) : Int) <
      kernelTarget hdr.difficulty stake (sproutsTimeWeight prev hdr t) then true else false

/-- Aepos kernel loop, `for t := 60; t >= 0; t--`: the argument is the offset
currently examined; on failure continue with the next smaller offset. -/
def aeposKernelGo (prev hdr : KHeader) (stake : Int) : Nat → KernelResult
  | 0 =>
    if aeposKernelOk prev hdr stake 0 then
      ⟨beToNat (aeposDigest prev hdr 0), 0, false⟩
    else ⟨0, 0, true⟩
  | t + 1 =>
    if aeposKernelOk prev hdr stake (t + 1) then
      ⟨beToNat (aeposDigest prev hdr (t + 1)), t + 1, false⟩
    else aeposKernelGo prev hdr stake t

/-- Aepos `computeKernel` (consensus/aepos/calculations.go): guard
`header.Number.Uint64() < 1 || prevBlock == nil`, then scan `t = 60, …, 0`. -/
def aeposComputeKernel (prev : Option KHeader) (stake : Int) (hdr : KHeader) : KernelResult :=
  match prev with
  | none => ⟨0, 0, true⟩
  | some p => if hdr.number < 1 then ⟨0, 0, true⟩ else aeposKernelGo p hdr stake 60

/-- Sprouts kernel loop, `for t := uint64(0); t < till; t++` with `till = 60`:
first argument is the number of offsets left to try, second the next offset. -/
def sproutsKernelGo (prev hdr : KHeader) (stake : Int) : Nat → Nat → KernelResult
  | 0, _ => ⟨0, 0, true⟩
  | left + 1, t =>
    if sproutsKernelOk prev hdr stake t then
      ⟨beToNat (sproutsDigest prev hdr t), t, false⟩
    else sproutsKernelGo prev hdr stake left (t + 1)

/-- Sprouts `computeKernel` (consensus/sprouts/calculations.go): same guard,
then scan `t = 0, 1, …, 59` upward; offset 60 is never examined. -/
def sproutsComputeKernel (prev : Option KHeader) (stake : Int) (hdr : KHeader) : KernelResult :=
  match prev with
  | none => ⟨0, 0, true⟩
  | some p => if hdr.number < 1 then ⟨0, 0, true⟩ else sproutsKernelGo p hdr stake 60 0

/-- Modelled from the spec and claim wording, for comparison with the code:
time weight `min(header.time − t − prev.time, 90 days in seconds)`, target
`difficulty * stake * timeWeight / coinValue / 86400`, offsets examined
`t = 60, 59, …, 0`, same double-SHA-256 candidate digest. -/
def claimTimeWeight (prev hdr : KHeader) (t : Nat) : Int :=
  min ((hdr.time : Int) - t - prev.time) 7776000

/-- Modelled from the spec and claim wording: the claimed acceptance test at
offset `t`. -/
def claimKernelOk (prev hdr : KHeader) (stake : Int) (t : Nat) : Bool :=
  if (leUint32 (aeposDigest prev hdr t) : Int) <
      Int.ediv (Int.ediv (hdr.difficulty * stake * claimTimeWeight prev hdr t) coinValue) 86400
  then true else false

/-- Modelled from the spec and claim wording: scan `t = 60, …, 0`, return the
digest and the first satisfying offset, else fail reporting offset 0. -/
def claimKernelGo (prev hdr : KHeader) (stake : Int) : Nat → KernelResult
  | 0 =>
    if claimKernelOk prev hdr stake 0 then
      ⟨beToNat (aeposDigest prev hdr 0), 0, false⟩
    else ⟨0, 0, true⟩
  | t + 1 =>
    if claimKernelOk prev hdr stake (t + 1) then
      ⟨beToNat (aeposDigest prev hdr (t + 1)), t + 1, false⟩
    else claimKernelGo prev hdr stake t

/-- Modelled from the spec and claim wording: the claimed `computeKernel`. -/
def claimComputeKernel (prev hdr : KHeader) (stake : Int) : KernelResult :=
  if hdr.number < 1 then ⟨0, 0, true⟩ else claimKernelGo prev hdr stake 60

/-! ## Difficulty retargeting -/

/-- Header view used by `computeDifficulty`: the chain reader is a total map
from block number to the header's time and difficulty. -/
structure DHeader where
  time : Nat
  difficulty : Int
deriving DecidableEq, Repr

/-- Aepos `computeDifficulty`: seed 10 below block 3; otherwise
`diff[n-1] * uint64((nInt-1)*targetSpacing + 2*Δ) / ((nInt+1)*targetSpacing)`
with `targetSpacing = 600`, `nInt = 604800/600 = 1008`, and
`Δ = (time[n-1] - time[n-2]).Uint64()`; clamped below by 1. -/
def aeposComputeDifficulty (chain : Nat → DHeader) (number : Nat) : Int :=
  if number < 3 then 10
  else
    let targetSpacing : Nat := 10 * 60
    let nInt : Nat := (7 * 24 * 60 * 60) / targetSpacing
    let timeDelta : Nat :=
      goUint64 (((chain (number - 1)).time : Int) - ((chain (number - 2)).time : Int))
    let diff := (chain (number - 1)).difficulty * (u64 ((nInt - 1) * targetSpacing + 2 * timeDelta) : Int)
    let diff := Int.ediv diff ((nInt + 1) * targetSpacing : Nat)
    if diff < 1 then 1 else diff

/-- Sprouts `computeDifficulty`: seed 100000 below block 3; otherwise the same
quotient with the `uint64` numerator additionally multiplied by 1000000, and
no lower clamp. -/
def sproutsComputeDifficulty (chain : Nat → DHeader) (number : Nat) : Int :=
  if number < 3 then 100000
  else
    let targetSpacing : Nat := 10 * 60
    let nInt : Nat := (7 * 24 * 60 * 60) / targetSpacing
    let timeDelta : Nat :=
      goUint64 (((chain (number - 1)).time : Int) - ((chain (number - 2)).time : Int))
    let diff := (chain (number - 1)).difficulty *
      (u64 (u64 ((nInt - 1) * targetSpacing + 2 * timeDelta) * 1000000) : Int)
    Int.ediv diff ((nInt + 1) * targetSpacing : Nat)

/-! ## CoinAge codec (stakes.go) -/

/-- The applicature-era `coinAge` record: `Time uint64`, `Age *big.Int`. -/
structure CoinAgeB where
  time : Nat
  age : Int
deriving DecidableEq, Repr

/-- The go-ethereum-era `coinAge` record: `Time uint64`, `Age uint64`. -/
structure CoinAgeU where
  time : Nat
  age : Nat
deriving DecidableEq, Repr

/-- Stake field width `extraCoinAge = 52` of the applicature variant. -/
def extraCoinAge : Nat := 52

/-- Stake field width `extraCoinAge = 32` of the go-ethereum variant. -/
def sproutsExtraCoinAge : Nat := 32

/-- Kernel field width `extraKernel = 64`. -/
def extraKernel : Nat := 64

/-- Go `copy(dst[off:], src)`: overwrite `dst` from position `off` with as much
of `src` as fits; the length of `dst` never changes. -/
def goCopy (dst : List Nat) (off : Nat) (src : List Nat) : List Nat :=
  dst.take off ++ src.take (dst.length - off) ++ dst.drop (off + src.length)

/-- Index of the first zero byte (list length when there is none). -/
def zeroScan : List Nat → Nat
  | [] => 0
  | b :: rest => if b = 0 then 0 else zeroScan rest + 1

/-- Applicature `coinAge.bytes()`: length-prefixed big-endian age padded to 20
bytes, extended by 12 zero bytes, then the big-endian time copied in at
offset 20 (left-aligned, clobbering whatever sits there). -/
def coinAgeBytes (c : CoinAgeB) : List Nat :=
  let encodedAge := beBytes c.age.natAbs
  let encoded := beBytes encodedAge.length ++ encodedAge
  let encoded := if encoded.length < 20 then encoded ++ List.replicate (20 - encoded.length) 0 else encoded
  let encoded := encoded ++ List.replicate (32 - 20) 0
  goCopy encoded 20 (beBytes (u64 c.time))

/-- Applicature `parseStake`: insists on exactly `extraCoinAge` bytes; byte 0
is the age length, bytes `1..1+L` the big-endian age; the time is read from
byte 20 up to the first zero byte. A slice out of range (`1+L` beyond the
buffer) panics in Go and is modelled as a parse failure. -/
def parseStake (stakeBytes : List Nat) : Except Unit CoinAgeB :=
  if stakeBytes.length ≠ extraCoinAge then .error ()
  else
    let ageLength := stakeBytes.getD 0 0
    if stakeBytes.length < 1 + ageLength then .error ()
    else
      let age : Int := beToNat ((stakeBytes.drop 1).take ageLength)
      let timeBytes := (stakeBytes.drop 20).take (zeroScan (stakeBytes.drop 20))
      .ok ⟨u64 (beToNat timeBytes), age⟩

/-- The stake field region as `Prepare` builds it: the serialization copied
into a zero-initialized `extraCoinAge`-byte window of `header.Extra`. -/
def stakeField (c : CoinAgeB) : List Nat :=
  goCopy (List.replicate extraCoinAge 0) 0 (coinAgeBytes c)

/-- Go-ethereum-era `coinAge.bytes()`: big-endian age left-aligned in 20
bytes (no length prefix), 12 more zero bytes, time copied in at offset 20. -/
def sproutsCoinAgeBytes (c : CoinAgeU) : List Nat :=
  let b := beBytes (u64 c.age)
  let b := if b.length < 20 then b ++ List.replicate (20 - b.length) 0 else b
  let b := b ++ List.replicate (32 - 20) 0
  goCopy b 20 (beBytes (u64 c.time))

/-- Go-ethereum-era `parseStake`: the age is read from byte 0 up to the first
zero byte or byte 20, the time from byte 20 up to the first zero byte. -/
def sproutsParseStake (stakeBytes : List Nat) : Except Unit CoinAgeU :=
  if stakeBytes.length ≠ sproutsExtraCoinAge then .error ()
  else
    let i := min (zeroScan stakeBytes) 20
    let age := u64 (beToNat (stakeBytes.take i))
    let timeBytes := (stakeBytes.drop 20).take (zeroScan (stakeBytes.drop 20))
    .ok ⟨u64 (beToNat timeBytes), age⟩

/-! ## Rewards -/

/-- Aepos `estimateBlockReward`: `stake.Value * 212 / 1000000` from the
header's extracted stake; a failed extraction yields `big0`. -/
def aeposEstimateBlockReward (extracted : Option Int) : Int :=
  match extracted with
  | none => 0
  | some v => Int.ediv (v * 212) 1000000

/-- Aepos `splitRewards`: `brutto = total * 8 / 100`,
`netto = total - brutto - brutto`; returned as `(brutto, netto)`. -/
def splitRewards (total : Int) : Int × Int :=
  let brutto := Int.ediv (total * 8) 100
  (brutto, total - brutto - brutto)

/-- Aepos `accumulateRewards` credits as
`(coinbase, RewardsCharityAccount, RewardsRDAccount)`. -/
def aeposAccumulateRewards (extracted : Option Int) : Int × Int × Int :=
  let reward := aeposEstimateBlockReward extracted
  let (brutto, netto) := splitRewards reward
  (netto, brutto, brutto)

/-- Sprouts `estimateBlockReward`: `uint64` expression
`stake.Age * 33 / (365*33+8) * rewardCoinYear` with
`rewardCoinYear = centValue * 8 = 80000`; division binds before the final
multiplication. -/
def sproutsEstimateBlockReward (stakeAge : Nat) : Nat :=
  u64 (u64 (u64 (stakeAge * 33)) / (365 * 33 + 8) * (centValue * 8))

/-- Sprouts `accumulateRewards` credits as `(coinbase, RewardsAccount)`:
`brutto = reward / 100 * 16` to the single rewards account and
`netto = reward - brutto` to the coinbase (`big.Int` arithmetic). -/
def sproutsAccumulateRewards (stakeAge : Nat) : Int × Int :=
  let reward : Int := sproutsEstimateBlockReward stakeAge
  let brutto := Int.ediv reward 100 * 16
  (reward - brutto, brutto)

/-! ## Duplicate-stake map and VerifySeal -/

/-- A Go `*big.Int`: an allocation identity together with the stored value.
The Go `==` operator on two such pointers compares the identities. -/
structure BigPtr where
  id : Nat
  val : Int
deriving DecidableEq, Repr

/-- A persisted `stake` record of the duplicate-stake map; `Stake *big.Int`
is a pointer field. -/
structure StakeRec where
  number : Nat
  hash : Nat
  timestamp : Nat
  kernel : List Nat
  stake : BigPtr
deriving DecidableEq, Repr

/-- Applicature `mappedStakes.isDuplicate`: for each record compare
`stake.Age == s.Stake` (a `*big.Int` pointer comparison, hence allocation
identity), `stake.Time == s.Timestamp`, and `bytes.Equal(kernel, s.Kernel)`. -/
def isDuplicate (stakeMap : List StakeRec) (stakeAge : BigPtr) (stakeTime : Nat)
    (kernel : List Nat) : Bool :=
  stakeMap.any fun s => stakeAge.id == s.stake.id && stakeTime == s.timestamp && kernel == s.kernel

/-- The errors `VerifySeal` can surface. -/
inductive SealErr
  | unknownBlock
  | invalidStake
  | duplicateStake
deriving DecidableEq, Repr

/-- Applicature `VerifySeal`: reject genesis, extract the stake, load the
duplicate-stake map — returning `nil` outright when the load errors — then
reject duplicates, else record the stake (`addStake`). The result pairs the
returned error with whether the header's stake was recorded. `freshAgeId` is
the allocation identity of the `Age` value `parseStake` freshly creates. -/
def verifySeal (number : Nat) (parsed : Except Unit CoinAgeB) (freshAgeId : Nat)
    (mapRes : Except Unit (List StakeRec)) (kernel : List Nat) : Option SealErr × Bool :=
  if number = 0 then (some .unknownBlock, false)
  else
    match parsed with
    | .error _ => (some .invalidStake, false)
    | .ok st =>
      match mapRes with
      | .error _ => (none, false)
      | .ok m =>
        if isDuplicate m ⟨freshAgeId, st.age⟩ st.time kernel then (some .duplicateStake, false)
        else (none, true)

/-! ## reduceCoinAge and Finalize -/

/-- Applicature `reduceCoinAge`: when the stored record loads and the consumed
stake is non-nil, subtract it from the stored age (`big.Int.Sub`, no clamping)
and stamp the current time; otherwise reset the record to age 0, time now. -/
def reduceCoinAge (loaded : Except Unit CoinAgeB) (stake : Option Int) (now : Nat) : CoinAgeB :=
  match loaded, stake with
  | .ok ca, some s => ⟨now, ca.age - s⟩
  | _, _ => ⟨now, 0⟩

/-- `Finalize` always calls `reduceCoinAge(state, db, header, nil)` — with a
nil consumed stake. -/
def finalizeReduceCoinAge (loaded : Except Unit CoinAgeB) (now : Nat) : CoinAgeB :=
  reduceCoinAge loaded none now

/-! ## Seal (kernel invocation prefix) -/

/-- The kernel-search invocation `Seal` performs: refuse genesis and empty
blocks, extract the prepared stake, lift a zero age to one coin-day, and call
`computeKernel` with that age. Returns the age passed in and the search
result; `none` models the paths on which the search is never reached. -/
def sealKernelCall (txCount : Nat) (extra : List Nat) (prev : Option KHeader)
    (hdr : KHeader) : Option (Int × KernelResult) :=
  if hdr.number = 0 then none
  else if txCount = 0 then none
  else
    match parseStake extra with
    | .error _ => none
    | .ok st =>
      let age := if st.age = 0 then 1 else st.age
      some (age, sproutsComputeKernel prev age hdr)

/-! ## Coin-age engines

The header walk reads transactions, recovers signers and consults the clock;
those externals are supplied as oracles in an environment record, while the
accumulation loop itself, the premine addition, the coin-day conversion, the
saturation cap (aepos) and all `uint64` wraparound (sprouts) are embedded
from the source. -/

/-- The aepos `coinAge` record: `Time uint64`, `Age *big.Int`, `Value *big.Int`. -/
structure CoinAgeA where
  time : Nat
  age : Int
  value : Int
deriving DecidableEq, Repr

/-- Environment of the aepos coin-age engine. `headerTime n` is
`GetHeaderByNumber(n).Time` (`none` for a nil header); `myStake n` is the
`(Age, Value)` of block `n`'s stake when `stakeOfBlock` succeeds; `blockAge n
dt` is the `(bValue, bAge)` pair of the transaction scan at time diff `dt`;
`premine` is `getPremineCoinAge()`. -/
structure AeposEnv where
  headerTime : Nat → Option Nat
  myStake : Nat → Option (Int × Int)
  blockAge : Nat → Int → Int × Int
  premine : Int
  currentNumber : Nat
  nowU : Nat
  cfgHolding : Nat
  cfgLifetime : Nat

/-- The aepos `accumulateCoinAge` inner loop, walking block numbers downward;
the accumulator is the running `(Age, Value)` pair of `lastCoinAge`. At
number 0 the premine value is added and the walk stops. -/
def aeposAccumulate (env : AeposEnv) (fromTime holding : Nat) :
    Nat → Int × Int → Int × Int
  | 0, acc => (acc.1 + env.premine, acc.2)
  | n + 1, acc =>
    match env.headerTime (n + 1) with
    | none => acc
    | some t =>
      if t < fromTime then acc
      else
        let diffTime : Int := (sub64 env.nowU t : Nat)
        let acc1 :=
          match env.myStake (n + 1) with
          | some sv =>
            let a := if holding < t then acc.1 - sv.1 else acc.1
            let netto := (splitRewards (aeposEstimateBlockReward (some sv.2))).2 * diffTime
            (a + netto, acc.2 + netto)
          | none => acc
        let bva := env.blockAge (n + 1) diffTime
        aeposAccumulate env fromTime holding n (acc1.1 + bva.2, acc1.2 + bva.1)

/-- The aepos `coinAge` engine: start from a zero record, walk from
`current - 1`, add the premine bonus once more, convert coin-seconds to
coin-days by dividing by `coinValue / (24*60*60*10000)`, cap at
`stakeMaxAge`, stamp the current time. The returned record is also the one
persisted by `saveCoinAge`. -/
def aeposCoinAgeRun (env : AeposEnv) : CoinAgeA :=
  let currentN := if env.currentNumber > 0 then env.currentNumber - 1 else env.currentNumber
  let fromTime := sub64 env.nowU env.cfgLifetime
  let holding := u64 (env.nowU + env.cfgHolding)
  let av := aeposAccumulate env fromTime holding currentN (0, 0)
  let age := av.1 + env.premine
  let age := Int.ediv age (coinValue / (24 * 60 * 60 * 10000) : Nat)
  let age := if stakeMaxAge < age then stakeMaxAge else age
  ⟨env.nowU, age, av.2⟩

/-- Outcome of `loadCoinAge` in the sprouts engine: a database failure, the
`leveldb` not-found sentinel, or a stored record. -/
inductive LoadRes
  | failure
  | notFound
  | found (ca : CoinAgeU)
deriving DecidableEq, Repr

/-- Environment of the sprouts coin-age engine (all ages are `uint64`). -/
structure SproutsEnv where
  headerTime : Nat → Option Nat
  myStakeAge : Nat → Option Nat
  blockAgeU : Nat → Nat → Nat
  preAlloc : Nat
  currentNumber : Nat
  nowU : Nat
  threeDaysAgo : Nat
  cfgLifetime : Nat
  cfgPeriod : Nat
  loaded : LoadRes

/-- The sprouts `accumulateCoinAge` loop: stop at number 0 or a nil header;
inside the three-day window subtract own stakes (`uint64` wraparound); stop
below `fromTime`; otherwise add the block age and continue downward. -/
def sproutsWalk (env : SproutsEnv) (fromTime : Nat) : Nat → Nat → Nat
  | 0, age => age
  | n + 1, age =>
    match env.headerTime (n + 1) with
    | none => age
    | some t =>
      let age1 :=
        if env.threeDaysAgo < t then
          match env.myStakeAge (n + 1) with
          | some s => sub64 age s
          | none => age
        else age
      if t < fromTime then age1
      else
        let age2 := u64 (age1 + env.blockAgeU (n + 1) (sub64 env.nowU t))
        sproutsWalk env fromTime n age2

/-- The sprouts `coinAge` engine: an unreadable store yields the zero record; a
missing record starts from zero; a fresh enough stored record is returned
unchanged; otherwise the walk runs from `current - 1`, the pre-allocation
bonus is added and the record is re-stamped and persisted. -/
def sproutsCoinAgeRun (env : SproutsEnv) : CoinAgeU :=
  match env.loaded with
  | .failure => ⟨0, 0⟩
  | other =>
    let last : CoinAgeU := match other with | .found ca => ca | _ => ⟨0, 0⟩
    if env.cfgPeriod < sub64 env.nowU last.time then
      let age1 := sproutsWalk env env.cfgLifetime (sub64 env.currentNumber 1) last.age
      let age2 := u64 (age1 + env.preAlloc)
      ⟨env.nowU, age2⟩
    else last

/-- Whether a load result carries a well-formed `uint64` age (the database
only ever stores `uint64` ages, so every actual load satisfies this). -/
def loadedAgeOk : LoadRes → Bool
  | .found ca => ca.age < 18446744073709551616
  | _ => true

/-! ## Theorems -/

/-- C9: when loading the duplicate-stake map fails, `VerifySeal` returns OK
(`nil`) for any non-genesis header with a parsable stake, performing no
duplicate detection and recording nothing. -/
theorem verifySeal_storeError_accepts (number : Nat) (st : CoinAgeB) (freshAgeId : Nat)
    (kernel : List Nat) (hn : number ≠ 0) :
    verifySeal number (.ok st) freshAgeId (.error ()) kernel = (none, false) := by
  simp [verifySeal, hn]

/-- Witness for C9 at a concrete non-genesis header. -/
theorem verifySeal_storeError_accepts_witness :
    (1 : Nat) ≠ 0 ∧ verifySeal 1 (.ok ⟨0, 0⟩) 0 (.error ()) [] = (none, false) :=
  ⟨by decide, verifySeal_storeError_accepts 1 ⟨0, 0⟩ 0 [] (by decide)⟩

/-- C10: when the extracted stake age is exactly zero and the block passes
`Seal`'s guards (non-genesis, at least one transaction, parsable stake), the
kernel search is invoked with the substituted minimum age of one coin-day. -/
theorem seal_zero_age_uses_one (txCount : Nat) (extra : List Nat) (prev : Option KHeader)
    (hdr : KHeader) (st : CoinAgeB) (hn : hdr.number ≠ 0) (htx : txCount ≠ 0)
    (hp : parseStake extra = .ok st) (hz : st.age = 0) :
    sealKernelCall txCount extra prev hdr = some (1, sproutsComputeKernel prev 1 hdr) := by
  simp [sealKernelCall, hn, htx, hp, hz]

/-- Witness for C10: the all-zero stake field parses to age zero and `Seal`
passes age 1 to the kernel search. -/
theorem seal_zero_age_uses_one_witness :
    (⟨1, 0, 0⟩ : KHeader).number ≠ 0 ∧ (1 : Nat) ≠ 0 ∧
    parseStake (List.replicate 52 0) = .ok ⟨0, 0⟩ ∧ (⟨0, 0⟩ : CoinAgeB).age = 0 ∧
    sealKernelCall 1 (List.replicate 52 0) none ⟨1, 0, 0⟩ =
      some (1, sproutsComputeKernel none 1 ⟨1, 0, 0⟩) :=
  ⟨by decide, by decide, rfl, rfl,
    seal_zero_age_uses_one 1 (List.replicate 52 0) none ⟨1, 0, 0⟩ ⟨0, 0⟩
      (by decide) (by decide) rfl rfl⟩

/-- C7 counterexample: a stored age of 5 reduced by a consumed stake of 10
leaves the persisted age at −5 — negative, and different from the claimed
`max(0, stored.age − s) = 0`. -/
theorem reduceCoinAge_negative_cex :
    reduceCoinAge (.ok ⟨0, 5⟩) (some 10) 99 = ⟨99, -5⟩ ∧
    (reduceCoinAge (.ok ⟨0, 5⟩) (some 10) 99).age < 0 ∧
    (reduceCoinAge (.ok ⟨0, 5⟩) (some 10) 99).age ≠ max 0 (5 - 10 : Int) := by
  refine ⟨rfl, by decide, by decide⟩

/-- C7 (amended): with a loaded record and a non-nil consumed stake,
`reduceCoinAge` stores `stored.age − s` with no clamping — strictly negative
whenever `s` exceeds the stored age — and stamps the current time; when the
record fails to load or the stake is nil (as in `Finalize`, which always
passes nil), it resets the record to age 0 at the current time. -/
theorem reduceCoinAge_spec (ca : CoinAgeB) (s : Int) (now : Nat)
    (loaded : Except Unit CoinAgeB) (now2 : Nat) (hs : ca.age < s) :
    reduceCoinAge (.ok ca) (some s) now = ⟨now, ca.age - s⟩ ∧
    (reduceCoinAge (.ok ca) (some s) now).age < 0 ∧
    finalizeReduceCoinAge loaded now2 = ⟨now2, 0⟩ := by
  refine ⟨rfl, ?_, ?_⟩
  · simp only [reduceCoinAge]
    omega
  · cases loaded <;> rfl

/-- Witness for C7 at a concrete over-consumed stake. -/
theorem reduceCoinAge_spec_witness :
    (⟨0, 5⟩ : CoinAgeB).age < 12 ∧
    (reduceCoinAge (.ok ⟨0, 5⟩) (some 12) 7 = ⟨7, 5 - 12⟩ ∧
      (reduceCoinAge (.ok ⟨0, 5⟩) (some 12) 7).age < 0 ∧
      finalizeReduceCoinAge (.error ()) 8 = ⟨8, 0⟩) :=
  ⟨by decide, reduceCoinAge_spec ⟨0, 5⟩ 12 7 (.error ()) 8 (by decide)⟩

/-- C2: the duplicate check evaluated at the failing input. The map holds a
record whose `(stake value, time, kernel)` triple is value-equal to the
candidate's, but its `Stake` lives in a different allocation than the freshly
parsed `Age`, and the `==` pointer comparison misses it: `isDuplicate`
returns `false` where the spec requires a duplicate verdict. -/
theorem isDuplicate_pointer_eq_misses :
    isDuplicate [⟨7, 99, 5, List.replicate 64 1, ⟨1, 100⟩⟩] ⟨2, 100⟩ 5
      (List.replicate 64 1) = false ∧
    (⟨1, 100⟩ : BigPtr).val = (⟨2, 100⟩ : BigPtr).val ∧
    (⟨1, 100⟩ : BigPtr).id ≠ (⟨2, 100⟩ : BigPtr).id := by
  decide

/-- C3 counterexample: at stake age 1 the Sprouts reward code computes
`1 * 33 / 12053 * 80000 = 0`, while the claimed formula
`age * 33 * rewardCoinYear / (365*33+8)` gives 219. -/
theorem sproutsReward_formula_cex :
    sproutsEstimateBlockReward 1 = 0 ∧
    (1 * 33 * (centValue * 8) / (365 * 33 + 8) : Nat) = 219 ∧
    sproutsEstimateBlockReward 1 ≠ 1 * 33 * (centValue * 8) / (365 * 33 + 8) := by
  decide

/-- C3 (amended): Aepos credits `brutto = R * 8 / 100` to each of the charity
and R&D accounts and `netto = R − 2·brutto` to the coinbase, so the three
credits sum exactly to `R = stake.value * 212 / 10^6`; Sprouts computes
`R = stake.age * 33 / (365·33+8) * rewardCoinYear` (division before the final
multiplication), credits `brutto = R / 100 * 16` to its single rewards
account and `netto = R − brutto` to the coinbase, the two credits again
summing exactly to `R`. -/
theorem accumulateRewards_split (v : Option Int) (a : Nat) :
    (aeposAccumulateRewards v).2.1 = Int.ediv (aeposEstimateBlockReward v * 8) 100 ∧
    (aeposAccumulateRewards v).2.2 = (aeposAccumulateRewards v).2.1 ∧
    (aeposAccumulateRewards v).1 =
      aeposEstimateBlockReward v - 2 * (aeposAccumulateRewards v).2.1 ∧
    (aeposAccumulateRewards v).1 + (aeposAccumulateRewards v).2.1 +
      (aeposAccumulateRewards v).2.2 = aeposEstimateBlockReward v ∧
    (sproutsAccumulateRewards a).2 = Int.ediv (sproutsEstimateBlockReward a) 100 * 16 ∧
    (sproutsAccumulateRewards a).1 + (sproutsAccumulateRewards a).2 =
      (sproutsEstimateBlockReward a : Int) := by
  refine ⟨rfl, rfl, ?_, ?_, rfl, ?_⟩
  · simp only [aeposAccumulateRewards, splitRewards]
    ring
  · simp only [aeposAccumulateRewards, splitRewards]
    ring
  · simp only [sproutsAccumulateRewards]
    ring

/-- C4 counterexample: at block 3 with previous difficulty 1 and a 10-second
block-time delta, the Sprouts retarget returns 998050 (the numerator carries
an extra factor of 1000000), not the claimed
`max 1 (diff * ((N−1)·600 + 2·Δ) / ((N+1)·600)) = 1`. -/
theorem computeDifficulty_times1e6_cex :
    sproutsComputeDifficulty (fun n => if n = 2 then ⟨20, 1⟩ else ⟨10, 1⟩) 3 = 998050 ∧
    max 1 (Int.ediv (1 * ((1008 - 1) * 600 + 2 * 10 : Nat)) ((1008 + 1) * 600 : Nat)) = 1 ∧
    sproutsComputeDifficulty (fun n => if n = 2 then ⟨20, 1⟩ else ⟨10, 1⟩) 3 ≠
      max 1 (Int.ediv (1 * ((1008 - 1) * 600 + 2 * 10 : Nat)) ((1008 + 1) * 600 : Nat)) := by
  refine ⟨by decide, by decide, by decide⟩

/-- C4 (amended): below block 3 the seeds are 10 (Aepos) and 100000 (Sprouts);
from block 3 on, Aepos returns
`max 1 (diff[n−1] * uint64((N−1)·600 + 2·Δ) / ((N+1)·600))` — hence always at
least 1 — while Sprouts multiplies the `uint64` numerator by a further
1000000 and applies no clamp. -/
theorem computeDifficulty_spec (chain : Nat → DHeader) (n : Nat) :
    aeposComputeDifficulty chain n =
      (if n < 3 then 10
       else
        max 1 (Int.ediv ((chain (n - 1)).difficulty *
          (u64 (604200 + 2 * goUint64 (((chain (n - 1)).time : Int) - (chain (n - 2)).time)) : Int))
          605400)) ∧
    1 ≤ aeposComputeDifficulty chain n ∧
    sproutsComputeDifficulty chain n =
      (if n < 3 then 100000
       else
        Int.ediv ((chain (n - 1)).difficulty *
          (u64 (u64 (604200 + 2 * goUint64 (((chain (n - 1)).time : Int) - (chain (n - 2)).time)) *
            1000000) : Int))
          605400) := by
  by_cases hn : n < 3
  · refine ⟨by simp [aeposComputeDifficulty, hn], ?_, by simp [sproutsComputeDifficulty, hn]⟩
    simp [aeposComputeDifficulty, hn]
  · have h1 : aeposComputeDifficulty chain n =
        max 1 (Int.ediv ((chain (n - 1)).difficulty *
          (u64 (604200 + 2 * goUint64 (((chain (n - 1)).time : Int) - (chain (n - 2)).time)) : Int))
          605400) := by
      simp only [aeposComputeDifficulty, hn, if_false]
      norm_num
      rcases lt_or_le (Int.ediv ((chain (n - 1)).difficulty *
          (u64 (604200 + 2 * goUint64 (((chain (n - 1)).time : Int) - (chain (n - 2)).time)) : Int))
          605400) 1 with h | h
      · rw [if_pos h, max_eq_left (le_of_lt h)]
      · rw [if_neg (not_lt.mpr h), max_eq_right h]
    refine ⟨by rw [if_neg hn]; exact h1, ?_, ?_⟩
    · rw [h1]; exact le_max_left _ _
    · rw [if_neg hn]
      simp only [sproutsComputeDifficulty, hn, if_false]
      norm_num

/-- C8 counterexample: two chains with the same previous difficulty 605400,
one with block-time delta 0 and one with delta 600. The faster chain
(smaller delta) gets the strictly LOWER next difficulty, 604200 < 605400,
refuting the claim's "faster blocks yield a higher next difficulty". -/
theorem retarget_faster_means_lower_cex :
    goUint64 ((((fun n => if n = 2 then ⟨10, 605400⟩ else ⟨10, 605400⟩ : Nat → DHeader) 2).time : Int) -
        ((fun n => if n = 2 then ⟨10, 605400⟩ else ⟨10, 605400⟩ : Nat → DHeader) 1).time) <
      goUint64 ((((fun n => if n = 2 then ⟨610, 605400⟩ else ⟨10, 605400⟩ : Nat → DHeader) 2).time : Int) -
        ((fun n => if n = 2 then ⟨610, 605400⟩ else ⟨10, 605400⟩ : Nat → DHeader) 1).time) ∧
    aeposComputeDifficulty (fun n => if n = 2 then ⟨10, 605400⟩ else ⟨10, 605400⟩) 3 <
      aeposComputeDifficulty (fun n => if n = 2 then ⟨610, 605400⟩ else ⟨10, 605400⟩) 3 := by
  refine ⟨by decide, by decide⟩

/-- C8 (amended): for a fixed previous difficulty the retarget is monotone
NON-DECREASING in the block-time delta in both variants (within the range
where the `uint64` numerator cannot wrap) — so faster blocks yield a lower
or equal next difficulty, not a higher one. -/
theorem retarget_monotone_in_delta (chA chB : Nat → DHeader) (n : Nat) (h3 : 3 ≤ n)
    (hd : (chA (n - 1)).difficulty = (chB (n - 1)).difficulty)
    (hd0 : 0 ≤ (chA (n - 1)).difficulty)
    (hΔ : goUint64 (((chA (n - 1)).time : Int) - (chA (n - 2)).time) ≤
      goUint64 (((chB (n - 1)).time : Int) - (chB (n - 2)).time))
    (hbound : goUint64 (((chB (n - 1)).time : Int) - (chB (n - 2)).time) ≤ 1099511627776) :
    aeposComputeDifficulty chA n ≤ aeposComputeDifficulty chB n ∧
    sproutsComputeDifficulty chA n ≤ sproutsComputeDifficulty chB n := by
  have hn : ¬ (n < 3) := not_lt.mpr h3
  set dA := goUint64 (((chA (n - 1)).time : Int) - (chA (n - 2)).time) with hdA
  set dB := goUint64 (((chB (n - 1)).time : Int) - (chB (n - 2)).time) with hdB
  have hA64 : 604200 + 2 * dA < 18446744073709551616 := by omega
  have hB64 : 604200 + 2 * dB < 18446744073709551616 := by omega
  have huA : u64 (604200 + 2 * dA) = 604200 + 2 * dA := Nat.mod_eq_of_lt hA64
  have huB : u64 (604200 + 2 * dB) = 604200 + 2 * dB := Nat.mod_eq_of_lt hB64
  have hA6 : u64 ((604200 + 2 * dA) * 1000000) = (604200 + 2 * dA) * 1000000 :=
    Nat.mod_eq_of_lt (by omega)
  have hB6 : u64 ((604200 + 2 * dB) * 1000000) = (604200 + 2 * dB) * 1000000 :=
    Nat.mod_eq_of_lt (by omega)
  have hnum : ((604200 + 2 * dA : Nat) : Int) ≤ ((604200 + 2 * dB : Nat) : Int) := by
    exact_mod_cast by omega
  have hnum6 : (((604200 + 2 * dA) * 1000000 : Nat) : Int) ≤
      (((604200 + 2 * dB) * 1000000 : Nat) : Int) := by
    exact_mod_cast by omega
  constructor
  · simp only [aeposComputeDifficulty, if_neg hn]
    norm_num
    rw [← hdA, ← hdB, huA, huB, hd]
    have hmul : (chB (n - 1)).difficulty * ((604200 + 2 * dA : Nat) : Int) ≤
        (chB (n - 1)).difficulty * ((604200 + 2 * dB : Nat) : Int) :=
      mul_le_mul_of_nonneg_left hnum (hd ▸ hd0)
    have hdiv : Int.ediv ((chB (n - 1)).difficulty * ((604200 + 2 * dA : Nat) : Int)) 605400 ≤
        Int.ediv ((chB (n - 1)).difficulty * ((604200 + 2 * dB : Nat) : Int)) 605400 :=
      Int.ediv_le_ediv (by norm_num) hmul
    split <;> split <;> omega
  · simp only [sproutsComputeDifficulty, if_neg hn]
    norm_num
    rw [← hdA, ← hdB, huA, huB, hA6, hB6, hd]
    have hmul : (chB (n - 1)).difficulty * (((604200 + 2 * dA) * 1000000 : Nat) : Int) ≤
        (chB (n - 1)).difficulty * (((604200 + 2 * dB) * 1000000 : Nat) : Int) :=
      mul_le_mul_of_nonneg_left hnum6 (hd ▸ hd0)
    exact Int.ediv_le_ediv (by norm_num) hmul

/-- Witness for C8 at concrete chains with deltas 3 and 5. -/
theorem retarget_monotone_in_delta_witness :
    (3 : Nat) ≤ 3 ∧
    (((fun n => if n = 2 then ⟨13, 9⟩ else ⟨10, 9⟩ : Nat → DHeader) (3 - 1)).difficulty =
      ((fun n => if n = 2 then ⟨15, 9⟩ else ⟨10, 9⟩ : Nat → DHeader) (3 - 1)).difficulty) ∧
    (0 : Int) ≤ ((fun n => if n = 2 then ⟨13, 9⟩ else ⟨10, 9⟩ : Nat → DHeader) (3 - 1)).difficulty ∧
    goUint64 ((((fun n => if n = 2 then ⟨13, 9⟩ else ⟨10, 9⟩ : Nat → DHeader) (3 - 1)).time : Int) -
        ((fun n => if n = 2 then ⟨13, 9⟩ else ⟨10, 9⟩ : Nat → DHeader) (3 - 2)).time) ≤
      goUint64 ((((fun n => if n = 2 then ⟨15, 9⟩ else ⟨10, 9⟩ : Nat → DHeader) (3 - 1)).time : Int) -
        ((fun n => if n = 2 then ⟨15, 9⟩ else ⟨10, 9⟩ : Nat → DHeader) (3 - 2)).time) ∧
    goUint64 ((((fun n => if n = 2 then ⟨15, 9⟩ else ⟨10, 9⟩ : Nat → DHeader) (3 - 1)).time : Int) -
        ((fun n => if n = 2 then ⟨15, 9⟩ else ⟨10, 9⟩ : Nat → DHeader) (3 - 2)).time) ≤ 1099511627776 ∧
    (aeposComputeDifficulty (fun n => if n = 2 then ⟨13, 9⟩ else ⟨10, 9⟩) 3 ≤
        aeposComputeDifficulty (fun n => if n = 2 then ⟨15, 9⟩ else ⟨10, 9⟩) 3 ∧
      sproutsComputeDifficulty (fun n => if n = 2 then ⟨13, 9⟩ else ⟨10, 9⟩) 3 ≤
        sproutsComputeDifficulty (fun n => if n = 2 then ⟨15, 9⟩ else ⟨10, 9⟩) 3) :=
  ⟨by decide, by decide, by decide, by decide, by decide,
    retarget_monotone_in_delta (fun n => if n = 2 then ⟨13, 9⟩ else ⟨10, 9⟩)
      (fun n => if n = 2 then ⟨15, 9⟩ else ⟨10, 9⟩) 3
      (by decide) (by decide) (by decide) (by decide) (by decide)⟩

/-- Helper: `sub64` always produces a value below `2^64`. -/
theorem sub64_lt (a b : Nat) : sub64 a b < 18446744073709551616 :=
  Nat.mod_lt _ (by norm_num)

/-- Helper: `u64` always produces a value below `2^64`. -/
theorem u64_lt (x : Nat) : u64 x < 18446744073709551616 :=
  Nat.mod_lt _ (by norm_num)

/-- Helper: the sprouts accumulation walk keeps the `uint64` age in range. -/
theorem sproutsWalk_lt (env : SproutsEnv) (fromTime : Nat) :
    ∀ n age, age < 18446744073709551616 →
      sproutsWalk env fromTime n age < 18446744073709551616 := by
  intro n
  induction n with
  | zero => intro age h; exact h
  | succ m ih =>
    intro age h
    unfold sproutsWalk
    cases henv : env.headerTime (m + 1) with
    | none => exact h
    | some t =>
      dsimp only
      by_cases h3 : env.threeDaysAgo < t
      · rw [if_pos h3]
        cases hst : env.myStakeAge (m + 1) with
        | none =>
          dsimp only
          split
          · exact h
          · exact ih _ (u64_lt _)
        | some s =>
          dsimp only
          split
          · exact sub64_lt _ _
          · exact ih _ (u64_lt _)
      · rw [if_neg h3]
        split
        · exact h
        · exact ih _ (u64_lt _)

/-- C6: the coin-age engines never return (or persist) an age above
`stakeMaxAge = 2^149`: the Aepos engine caps explicitly, and the Sprouts
engine's `uint64` age is below `2^64 ≤ 2^149` whenever the stored record is a
well-formed `uint64` (which the database guarantees). -/
theorem coinAge_within_cap (envA : AeposEnv) (envS : SproutsEnv)
    (hload : loadedAgeOk envS.loaded = true) :
    (aeposCoinAgeRun envA).age ≤ stakeMaxAge ∧
    ((sproutsCoinAgeRun envS).age : Int) ≤ stakeMaxAge := by
  constructor
  · unfold aeposCoinAgeRun
    dsimp only
    split <;> split <;> omega
  · have hlt : (sproutsCoinAgeRun envS).age < 18446744073709551616 := by
      unfold sproutsCoinAgeRun
      cases hl : envS.loaded with
      | failure => norm_num
      | notFound =>
        dsimp only
        split
        · exact u64_lt _
        · norm_num
      | found ca =>
        have hca : ca.age < 18446744073709551616 := by
          have := hload
          rw [hl] at this
          simpa [loadedAgeOk] using this
        dsimp only
        split
        · exact u64_lt _
        · exact hca
    have : ((sproutsCoinAgeRun envS).age : Int) < 18446744073709551616 := by exact_mod_cast hlt
    unfold stakeMaxAge
    omega

/-- Witness for C6 at concrete (trivial) environments. -/
theorem coinAge_within_cap_witness :
    loadedAgeOk (SproutsEnv.mk (fun _ => none) (fun _ => none) (fun _ _ => 0) 0 0 0 0 0 0
        (.found ⟨3, 5⟩)).loaded = true ∧
    ((aeposCoinAgeRun (AeposEnv.mk (fun _ => none) (fun _ => none) (fun _ _ => (0, 0)) 0 0 0 0 0)).age ≤
        stakeMaxAge ∧
      ((sproutsCoinAgeRun (SproutsEnv.mk (fun _ => none) (fun _ => none) (fun _ _ => 0) 0 0 0 0 0 0
          (.found ⟨3, 5⟩))).age : Int) ≤ stakeMaxAge) :=
  ⟨by decide,
    coinAge_within_cap
      (AeposEnv.mk (fun _ => none) (fun _ => none) (fun _ _ => (0, 0)) 0 0 0 0 0)
      (SproutsEnv.mk (fun _ => none) (fun _ => none) (fun _ _ => 0) 0 0 0 0 0 0 (.found ⟨3, 5⟩))
      (by decide)⟩

/-- Helper: `beToNat` of a one-byte extension. -/
theorem beToNat_append_byte (l : List Nat) (b : Nat) :
    beToNat (l ++ [b]) = beToNat l * 256 + b := by
  simp [beToNat, List.foldl_append]

/-- Helper: `beBytesAux` at argument zero is the empty list. -/
theorem beBytesAux_zero (fuel : Nat) : beBytesAux fuel 0 = [] := by
  cases fuel <;> simp [beBytesAux]

/-- Helper: with enough fuel, `beBytesAux` inverts through `beToNat`. -/
theorem beBytesAux_beToNat : ∀ fuel n, n ≤ fuel → beToNat (beBytesAux fuel n) = n := by
  intro fuel
  induction fuel with
  | zero =>
    intro n hn
    interval_cases n
    simp [beBytesAux, beToNat]
  | succ f ih =>
    intro n hn
    by_cases h0 : n = 0
    · subst h0; simp [beBytesAux, beToNat]
    · have hdiv : n / 256 ≤ f := by
        have : n / 256 < n := Nat.div_lt_self (Nat.pos_of_ne_zero h0) (by norm_num)
        omega
      rw [beBytesAux, if_neg h0, beToNat_append_byte, ih _ hdiv]
      omega

/-- Helper: `big.Int.SetBytes` inverts `big.Int.Bytes`. -/
theorem beToNat_beBytes (n : Nat) : beToNat (beBytes n) = n :=
  beBytesAux_beToNat (n + 1) n (by omega)

/-- Helper: a number below `256^k` expands to at most `k` bytes. -/
theorem beBytesAux_length_le : ∀ fuel n k, n < 256 ^ k → (beBytesAux fuel n).length ≤ k := by
  intro fuel
  induction fuel with
  | zero => intro n k _; simp [beBytesAux]
  | succ f ih =>
    intro n k hk
    by_cases h0 : n = 0
    · subst h0; simp [beBytesAux]
    · have hkpos : 0 < k := by
        rcases Nat.eq_zero_or_pos k with h | h
        · subst h; simp at hk; omega
        · exact h
      have hdiv : n / 256 < 256 ^ (k - 1) := by
        rw [Nat.div_lt_iff_lt_mul (by norm_num : 0 < 256)]
        calc n < 256 ^ k := hk
        _ = 256 ^ (k - 1) * 256 := by
            conv_lhs => rw [show k = (k - 1) + 1 by omega]
            rw [pow_succ]
      rw [beBytesAux, if_neg h0]
      have := ih (n / 256) (k - 1) hdiv
      simp only [List.length_append, List.length_cons, List.length_nil]
      omega

/-- Helper: length bound for `beBytes`. -/
theorem beBytes_length_le (n k : Nat) (h : n < 256 ^ k) : (beBytes n).length ≤ k :=
  beBytesAux_length_le (n + 1) n k h

/-- Helper: a nonzero byte-sized number serializes to the one-byte list. -/
theorem beBytes_small (n : Nat) (h1 : n < 256) (h0 : n ≠ 0) : beBytes n = [n] := by
  rw [beBytes]
  cases n with
  | zero => exact absurd rfl h0
  | succ m =>
    rw [beBytesAux, if_neg h0]
    rw [Nat.div_eq_of_lt h1, beBytesAux_zero, Nat.mod_eq_of_lt h1]
    simp

/-- Helper: a nonzero number has a nonempty serialization. -/
theorem beBytes_ne_nil (n : Nat) (h0 : n ≠ 0) : (beBytes n).length ≠ 0 := by
  intro hlen
  have := beToNat_beBytes n
  rw [List.length_eq_zero.mp hlen] at this
  simp [beToNat] at this
  omega

/-- Helper: the zero scan stops exactly at the end of a zero-free prefix. -/
theorem zeroScan_append_zero :
    ∀ (l rest : List Nat), (∀ b ∈ l, b ≠ 0) → zeroScan (l ++ 0 :: rest) = l.length := by
  intro l
  induction l with
  | nil => intro rest _; simp [zeroScan]
  | cons b l' ih =>
    intro rest h
    have hb : b ≠ 0 := h b (by simp)
    rw [List.cons_append, zeroScan, if_neg hb, ih rest fun x hx => h x (by simp [hx])]
    simp

/-- Helper: the 32-byte serialization layout shared by both `bytes()`
variants — a front block padded to 20 bytes, 12 zero bytes, and the time
bytes copied over the zeros at offset 20. -/
theorem bytesLayout (Pa T : List Nat) (hPa : Pa.length ≤ 20) (hT : T.length ≤ 8) :
    goCopy ((if Pa.length < 20 then Pa ++ List.replicate (20 - Pa.length) 0 else Pa) ++
        List.replicate 12 0) 20 T =
      (Pa ++ List.replicate (20 - Pa.length) 0) ++ (T ++ List.replicate (12 - T.length) 0) := by
  have hE : (if Pa.length < 20 then Pa ++ List.replicate (20 - Pa.length) 0 else Pa) =
      Pa ++ List.replicate (20 - Pa.length) 0 := by
    split
    · rfl
    · have h20 : 20 - Pa.length = 0 := by omega
      rw [h20]
      simp
  rw [hE]
  have hElen : (Pa ++ List.replicate (20 - Pa.length) 0).length = 20 := by
    simp only [List.length_append, List.length_replicate]
    omega
  rw [goCopy, List.take_left' hElen]
  rw [List.length_append, hElen, List.length_replicate]
  rw [show (20 + 12 - 20 : Nat) = 12 from rfl]
  rw [List.take_of_length_le (by omega)]
  rw [show (20 + T.length : Nat) =
    (Pa ++ List.replicate (20 - Pa.length) 0).length + T.length from by rw [hElen]]
  rw [List.drop_append, List.drop_replicate, List.append_assoc]

/-- Helper: the applicature serialization in padded normal form. -/
theorem coinAgeBytes_eq (c : CoinAgeB) (ha : c.age.natAbs < 256 ^ 19)
    (ht : c.time < 18446744073709551616) :
    coinAgeBytes c =
      ((beBytes (beBytes c.age.natAbs).length ++ beBytes c.age.natAbs) ++
        List.replicate (20 - (beBytes (beBytes c.age.natAbs).length ++
          beBytes c.age.natAbs).length) 0) ++
      (beBytes c.time ++ List.replicate (12 - (beBytes c.time).length) 0) := by
  have hAl : (beBytes c.age.natAbs).length ≤ 19 := beBytes_length_le _ 19 ha
  have hPl : (beBytes (beBytes c.age.natAbs).length).length ≤ 1 := by
    apply beBytes_length_le
    calc (beBytes c.age.natAbs).length ≤ 19 := hAl
    _ < 256 ^ 1 := by norm_num
  have hTl : (beBytes c.time).length ≤ 8 := by
    apply beBytes_length_le
    calc c.time < 18446744073709551616 := ht
    _ = 256 ^ 8 := by norm_num
  have hPA : (beBytes (beBytes c.age.natAbs).length ++ beBytes c.age.natAbs).length ≤ 20 := by
    rw [List.length_append]
    omega
  have step : coinAgeBytes c =
      goCopy ((if (beBytes (beBytes c.age.natAbs).length ++ beBytes c.age.natAbs).length < 20 then
          (beBytes (beBytes c.age.natAbs).length ++ beBytes c.age.natAbs) ++
            List.replicate (20 - (beBytes (beBytes c.age.natAbs).length ++
              beBytes c.age.natAbs).length) 0
        else beBytes (beBytes c.age.natAbs).length ++ beBytes c.age.natAbs) ++
        List.replicate 12 0) 20 (beBytes c.time) := by
    simp only [coinAgeBytes, u64, show (32 - 20 : Nat) = 12 from rfl]
    rw [Nat.mod_eq_of_lt ht]
  rw [step, bytesLayout _ _ hPA hTl]

set_option maxHeartbeats 1000000 in
/-- Helper: the 52-byte stake field in padded normal form. -/
theorem stakeField_eq (c : CoinAgeB) (ha : c.age.natAbs < 256 ^ 19)
    (ht : c.time < 18446744073709551616) :
    stakeField c =
      ((beBytes (beBytes c.age.natAbs).length ++ beBytes c.age.natAbs) ++
        List.replicate (20 - (beBytes (beBytes c.age.natAbs).length ++
          beBytes c.age.natAbs).length) 0) ++
      (beBytes c.time ++ List.replicate (32 - (beBytes c.time).length) 0) := by
  have hAl : (beBytes c.age.natAbs).length ≤ 19 := beBytes_length_le _ 19 ha
  have hPl : (beBytes (beBytes c.age.natAbs).length).length ≤ 1 := by
    apply beBytes_length_le
    calc (beBytes c.age.natAbs).length ≤ 19 := hAl
    _ < 256 ^ 1 := by norm_num
  have hTl : (beBytes c.time).length ≤ 8 := by
    apply beBytes_length_le
    calc c.time < 18446744073709551616 := ht
    _ = 256 ^ 8 := by norm_num
  have hcb := coinAgeBytes_eq c ha ht
  have hcblen : (coinAgeBytes c).length = 32 := by
    rw [hcb]
    simp only [List.length_append, List.length_replicate]
    omega
  rw [stakeField, goCopy, List.take_zero, List.nil_append, List.length_replicate,
    Nat.sub_zero, Nat.zero_add, show extraCoinAge = 52 from rfl]
  rw [List.take_of_length_le (by omega), hcblen, List.drop_replicate,
    show (52 - 32 : Nat) = 20 from rfl, hcb]
  simp only [List.append_assoc, List.append_right_inj]
  rw [← List.replicate_add]
  congr 1
  omega

/-- Helper: `beBytes 0` is empty. -/
theorem beBytes_zero : beBytes 0 = [] := rfl

set_option maxHeartbeats 1000000 in
/-- Helper: parsing the prepared 52-byte stake field recovers the record,
provided the age takes at most 19 bytes and no byte of the big-endian time is
zero. -/
theorem parseStake_stakeField (c : CoinAgeB) (h0 : 0 ≤ c.age) (ha : c.age.natAbs < 256 ^ 19)
    (ht : c.time < 18446744073709551616) (hz : 0 ∉ beBytes c.time) :
    parseStake (stakeField c) = .ok c := by
  have hNF := stakeField_eq c ha ht
  have hAl : (beBytes c.age.natAbs).length ≤ 19 := beBytes_length_le _ 19 ha
  have hPl : (beBytes (beBytes c.age.natAbs).length).length ≤ 1 := by
    apply beBytes_length_le
    calc (beBytes c.age.natAbs).length ≤ 19 := hAl
    _ < 256 ^ 1 := by norm_num
  have hTl : (beBytes c.time).length ≤ 8 := by
    apply beBytes_length_le
    calc c.time < 18446744073709551616 := ht
    _ = 256 ^ 8 := by norm_num
  have hzT : ∀ b ∈ beBytes c.time, b ≠ 0 := by
    intro b hb hb0
    exact hz (hb0 ▸ hb)
  have hFlen : ((beBytes (beBytes c.age.natAbs).length ++ beBytes c.age.natAbs) ++
      List.replicate (20 - (beBytes (beBytes c.age.natAbs).length ++
        beBytes c.age.natAbs).length) 0).length = 20 := by
    simp only [List.length_append, List.length_replicate]
    omega
  have hlen : (stakeField c).length = 52 := by
    rw [hNF]
    simp only [List.length_append, List.length_replicate, hFlen]
    omega
  have hgetD : (stakeField c).getD 0 0 = (beBytes c.age.natAbs).length := by
    rw [hNF]
    by_cases hA0 : c.age.natAbs = 0
    · rw [hA0, beBytes_zero]
      simp only [List.length_nil, beBytes_zero, List.nil_append, List.length_replicate,
        Nat.sub_zero]
      rw [show List.replicate 20 (0 : Nat) = 0 :: List.replicate 19 0 from rfl,
        List.cons_append, List.getD_cons_zero]
    · have hl0 : (beBytes c.age.natAbs).length ≠ 0 := beBytes_ne_nil _ hA0
      rw [beBytes_small _ (by omega) hl0]
      simp only [List.singleton_append, List.cons_append, List.getD_cons_zero]
  have hdrop20 : (stakeField c).drop 20 =
      beBytes c.time ++ List.replicate (32 - (beBytes c.time).length) 0 := by
    rw [hNF]
    exact List.drop_left' hFlen
  have hAval : beToNat (((stakeField c).drop 1).take ((beBytes c.age.natAbs).length)) =
      c.age.natAbs := by
    by_cases hA0 : c.age.natAbs = 0
    · rw [hA0, beBytes_zero]
      simp [beToNat]
    · have hl0 : (beBytes c.age.natAbs).length ≠ 0 := beBytes_ne_nil _ hA0
      rw [hNF, beBytes_small _ (by omega) hl0]
      simp only [List.singleton_append, List.cons_append, List.append_assoc,
        List.drop_succ_cons, List.drop_zero, List.nil_append]
      rw [List.take_left' rfl, beToNat_beBytes]
  have htime : u64 (beToNat (((stakeField c).drop 20).take
      (zeroScan ((stakeField c).drop 20)))) = c.time := by
    rw [hdrop20, show (32 - (beBytes c.time).length : Nat) =
      (31 - (beBytes c.time).length) + 1 by omega, List.replicate_succ,
      zeroScan_append_zero _ _ hzT, List.take_left, beToNat_beBytes, u64,
      Nat.mod_eq_of_lt ht]
  rw [parseStake, hlen, hgetD]
  rw [if_neg (by simp [extraCoinAge]), if_neg (by omega)]
  dsimp only
  rw [hAval, htime, Int.natAbs_of_nonneg h0]

set_option maxHeartbeats 1000000 in
/-- Helper: the go-ethereum-era 32-byte serialization parses back, provided no
byte of the big-endian age or time is zero. -/
theorem sproutsParse_roundtrip (c : CoinAgeU) (ha : c.age < 18446744073709551616)
    (ht : c.time < 18446744073709551616) (hza : 0 ∉ beBytes c.age)
    (hzt : 0 ∉ beBytes c.time) :
    sproutsParseStake (sproutsCoinAgeBytes c) = .ok c := by
  have hAl : (beBytes c.age).length ≤ 8 := by
    apply beBytes_length_le
    calc c.age < 18446744073709551616 := ha
    _ = 256 ^ 8 := by norm_num
  have hTl : (beBytes c.time).length ≤ 8 := by
    apply beBytes_length_le
    calc c.time < 18446744073709551616 := ht
    _ = 256 ^ 8 := by norm_num
  have hzA : ∀ b ∈ beBytes c.age, b ≠ 0 := fun b hb hb0 => hza (hb0 ▸ hb)
  have hzT : ∀ b ∈ beBytes c.time, b ≠ 0 := fun b hb hb0 => hzt (hb0 ▸ hb)
  have hNF : sproutsCoinAgeBytes c =
      (beBytes c.age ++ List.replicate (20 - (beBytes c.age).length) 0) ++
      (beBytes c.time ++ List.replicate (12 - (beBytes c.time).length) 0) := by
    have step : sproutsCoinAgeBytes c =
        goCopy ((if (beBytes c.age).length < 20 then
            beBytes c.age ++ List.replicate (20 - (beBytes c.age).length) 0
          else beBytes c.age) ++ List.replicate 12 0) 20 (beBytes c.time) := by
      simp only [sproutsCoinAgeBytes, u64, show (32 - 20 : Nat) = 12 from rfl]
      rw [Nat.mod_eq_of_lt ht, Nat.mod_eq_of_lt ha]
    rw [step, bytesLayout _ _ (by omega) hTl]
  have hFlen : (beBytes c.age ++ List.replicate (20 - (beBytes c.age).length) 0).length = 20 := by
    simp only [List.length_append, List.length_replicate]
    omega
  have hlen : (sproutsCoinAgeBytes c).length = 32 := by
    rw [hNF]
    simp only [List.length_append, List.length_replicate, hFlen]
    omega
  have hscan : zeroScan (sproutsCoinAgeBytes c) = (beBytes c.age).length := by
    rw [hNF, show (20 - (beBytes c.age).length : Nat) =
      (19 - (beBytes c.age).length) + 1 by omega, List.replicate_succ]
    rw [List.append_assoc, List.cons_append]
    exact zeroScan_append_zero _ _ hzA
  have htake : (sproutsCoinAgeBytes c).take ((beBytes c.age).length) = beBytes c.age := by
    rw [hNF, List.append_assoc]
    exact List.take_left' rfl
  have hdrop20 : (sproutsCoinAgeBytes c).drop 20 =
      beBytes c.time ++ List.replicate (12 - (beBytes c.time).length) 0 := by
    rw [hNF]
    exact List.drop_left' hFlen
  have htime : u64 (beToNat (((sproutsCoinAgeBytes c).drop 20).take
      (zeroScan ((sproutsCoinAgeBytes c).drop 20)))) = c.time := by
    rw [hdrop20, show (12 - (beBytes c.time).length : Nat) =
      (11 - (beBytes c.time).length) + 1 by omega, List.replicate_succ,
      zeroScan_append_zero _ _ hzT, List.take_left, beToNat_beBytes, u64,
      Nat.mod_eq_of_lt ht]
  rw [sproutsParseStake, hlen]
  rw [if_neg (by simp [sproutsExtraCoinAge])]
  dsimp only
  rw [hscan, min_eq_left (by omega), htake, htime, beToNat_beBytes, u64, Nat.mod_eq_of_lt ha]

/-- C5 counterexample: the record `{time 256, age 5}` (age of one byte, well
within the claimed 20-byte domain). Parsing `serialize(c)` directly fails —
`bytes()` emits 32 bytes but `parseStake` insists on `extraCoinAge = 52` —
and parsing the 52-byte stake field that `Prepare` builds from it returns
`{time 1, age 5}`: the zero byte inside the big-endian time `0x01 0x00`
truncates the zero-terminated time scan. -/
theorem parseStake_roundtrip_cex :
    parseStake (coinAgeBytes ⟨256, 5⟩) = .error () ∧
    parseStake (stakeField ⟨256, 5⟩) = .ok ⟨1, 5⟩ ∧
    (⟨1, 5⟩ : CoinAgeB) ≠ ⟨256, 5⟩ := by
  refine ⟨rfl, rfl, by decide⟩

/-- C5 (amended): the round trip holds on the restricted domain only. For the
applicature 52-byte codec: ages of at most 19 bytes (not 20) and times whose
big-endian bytes are all nonzero (or time 0), parsed from the 52-byte stake
field `Prepare` lays down (parsing the raw 32-byte `bytes()` output always
fails the length check). For the go-ethereum 32-byte codec: ages and times
whose big-endian bytes are all nonzero (or zero values). -/
theorem parseStake_roundtrip (c : CoinAgeB) (cu : CoinAgeU)
    (h0 : 0 ≤ c.age) (ha : c.age.natAbs < 256 ^ 19) (ht : c.time < 18446744073709551616)
    (hz : 0 ∉ beBytes c.time) (hua : cu.age < 18446744073709551616)
    (hut : cu.time < 18446744073709551616) (hza : 0 ∉ beBytes cu.age)
    (hzt : 0 ∉ beBytes cu.time) :
    parseStake (stakeField c) = .ok c ∧
    sproutsParseStake (sproutsCoinAgeBytes cu) = .ok cu :=
  ⟨parseStake_stakeField c h0 ha ht hz, sproutsParse_roundtrip cu hua hut hza hzt⟩

/-- Witness for C5 on the spec's own corpus record `{1257894000, 100}`. -/
theorem parseStake_roundtrip_witness :
    (0 : Int) ≤ (⟨1257894000, 100⟩ : CoinAgeB).age ∧
    (⟨1257894000, 100⟩ : CoinAgeB).age.natAbs < 256 ^ 19 ∧
    (⟨1257894000, 100⟩ : CoinAgeB).time < 18446744073709551616 ∧
    (0 : Nat) ∉ beBytes (⟨1257894000, 100⟩ : CoinAgeB).time ∧
    (⟨1257894000, 100⟩ : CoinAgeU).age < 18446744073709551616 ∧
    (⟨1257894000, 100⟩ : CoinAgeU).time < 18446744073709551616 ∧
    (0 : Nat) ∉ beBytes (⟨1257894000, 100⟩ : CoinAgeU).age ∧
    (0 : Nat) ∉ beBytes (⟨1257894000, 100⟩ : CoinAgeU).time ∧
    (parseStake (stakeField ⟨1257894000, 100⟩) = .ok ⟨1257894000, 100⟩ ∧
      sproutsParseStake (sproutsCoinAgeBytes ⟨1257894000, 100⟩) = .ok ⟨1257894000, 100⟩) :=
  ⟨by decide, by decide, by decide, by decide, by decide, by decide, by decide, by decide,
    parseStake_roundtrip ⟨1257894000, 100⟩ ⟨1257894000, 100⟩
      (by decide) (by decide) (by decide) (by decide) (by decide) (by decide)
      (by decide) (by decide)⟩

/-- Helper: the downward Aepos kernel loop returns the first (largest)
examined offset satisfying the candidate bound, with the full digest; on
failure it reports hash 0, offset 0, and no offset up to the start satisfies. -/
theorem aeposKernelGo_char (p hdr : KHeader) (s : Int) :
    ∀ t : Nat,
      ((aeposKernelGo p hdr s t).errK = true →
        aeposKernelGo p hdr s t = ⟨0, 0, true⟩ ∧
        ∀ u, u ≤ t → aeposKernelOk p hdr s u = false) ∧
      ((aeposKernelGo p hdr s t).errK = false →
        (aeposKernelGo p hdr s t).tstamp ≤ t ∧
        aeposKernelOk p hdr s (aeposKernelGo p hdr s t).tstamp = true ∧
        (∀ u, (aeposKernelGo p hdr s t).tstamp < u → u ≤ t →
          aeposKernelOk p hdr s u = false) ∧
        (aeposKernelGo p hdr s t).hash =
          beToNat (aeposDigest p hdr (aeposKernelGo p hdr s t).tstamp)) := by
  intro t
  induction t with
  | zero =>
    by_cases h : aeposKernelOk p hdr s 0 = true
    · simp only [aeposKernelGo, if_pos h]
      exact ⟨fun herr => by simp at herr,
        fun _ => ⟨le_refl 0, h, fun u hu1 hu2 => by omega, by trivial⟩⟩
    · rw [Bool.not_eq_true] at h
      simp only [aeposKernelGo, h, Bool.false_eq_true, if_false]
      refine ⟨fun _ => ⟨by trivial, fun u hu => ?_⟩, fun hf => by simp at hf⟩
      have hu0 : u = 0 := by omega
      rw [hu0]
      exact h
  | succ t ih =>
    by_cases h : aeposKernelOk p hdr s (t + 1) = true
    · simp only [aeposKernelGo, if_pos h]
      exact ⟨fun herr => by simp at herr,
        fun _ => ⟨le_refl _, h, fun u hu1 hu2 => by omega, by trivial⟩⟩
    · rw [Bool.not_eq_true] at h
      simp only [aeposKernelGo, h, Bool.false_eq_true, if_false]
      constructor
      · intro herr
        obtain ⟨hstruct, hall⟩ := ih.1 herr
        refine ⟨hstruct, fun u hu => ?_⟩
        rcases Nat.lt_or_ge u (t + 1) with hu' | hu'
        · exact hall u (by omega)
        · have : u = t + 1 := by omega
          rw [this]
          exact h
      · intro hfound
        obtain ⟨h1, h2, h3, h4⟩ := ih.2 hfound
        refine ⟨by omega, h2, fun u hu1 hu2 => ?_, h4⟩
        rcases Nat.lt_or_ge u (t + 1) with hu' | hu'
        · exact h3 u hu1 (by omega)
        · have : u = t + 1 := by omega
          rw [this]
          exact h

/-- Helper: the upward Sprouts kernel loop returns the first (smallest)
offset in its window satisfying the candidate bound, with the full digest;
on failure no offset in the window satisfies. -/
theorem sproutsKernelGo_char (p hdr : KHeader) (s : Int) :
    ∀ left t0 : Nat,
      ((sproutsKernelGo p hdr s left t0).errK = true →
        sproutsKernelGo p hdr s left t0 = ⟨0, 0, true⟩ ∧
        ∀ u, t0 ≤ u → u < t0 + left → sproutsKernelOk p hdr s u = false) ∧
      ((sproutsKernelGo p hdr s left t0).errK = false →
        t0 ≤ (sproutsKernelGo p hdr s left t0).tstamp ∧
        (sproutsKernelGo p hdr s left t0).tstamp < t0 + left ∧
        sproutsKernelOk p hdr s (sproutsKernelGo p hdr s left t0).tstamp = true ∧
        (∀ u, t0 ≤ u → u < (sproutsKernelGo p hdr s left t0).tstamp →
          sproutsKernelOk p hdr s u = false) ∧
        (sproutsKernelGo p hdr s left t0).hash =
          beToNat (sproutsDigest p hdr (sproutsKernelGo p hdr s left t0).tstamp)) := by
  intro left
  induction left with
  | zero =>
    intro t0
    exact ⟨fun _ => ⟨by trivial, fun u hu1 hu2 => by omega⟩, fun hf => by simp [sproutsKernelGo] at hf⟩
  | succ l ih =>
    intro t0
    by_cases h : sproutsKernelOk p hdr s t0 = true
    · simp only [sproutsKernelGo, if_pos h]
      exact ⟨fun herr => by simp at herr,
        fun _ => ⟨le_refl _, by omega, h, fun u hu1 hu2 => by omega, by trivial⟩⟩
    · rw [Bool.not_eq_true] at h
      simp only [sproutsKernelGo, h, Bool.false_eq_true, if_false]
      constructor
      · intro herr
        obtain ⟨hs, hall⟩ := (ih (t0 + 1)).1 herr
        refine ⟨hs, fun u hu1 hu2 => ?_⟩
        rcases Nat.eq_or_lt_of_le hu1 with hu' | hu'
        · rw [← hu']
          exact h
        · exact hall u (by omega) (by omega)
      · intro hf
        obtain ⟨h1, h2, h3, h4, h5⟩ := (ih (t0 + 1)).2 hf
        refine ⟨by omega, by omega, h3, fun u hu1 hu2 => ?_, h5⟩
        rcases Nat.eq_or_lt_of_le hu1 with hu' | hu'
        · rw [← hu']
          exact h
        · exact h4 u (by omega) hu2

/-- C1 (amended): for headers of number ≥ 1, the Aepos `computeKernel` scans
offsets `t = 60, 59, …, 0` and returns the digest (as a big-endian number)
and the first examined — i.e. largest — offset whose little-endian-uint32
candidate is below the target built from
`timeWeight = min(header.time − t − prev.time, stakeMaxTime)` with
`stakeMaxTime = 7 776 000 000 000 000` (90 days in nanoseconds, not
seconds); if no offset in `[0, 60]` qualifies it fails with `NoKernel`
reporting hash 0 and offset 0. The Sprouts variant scans upward,
`t = 0, 1, …, 59` (offset 60 is never examined), returning the smallest
qualifying offset, with the same nanosecond clamp. -/
theorem computeKernel_first_offset (p hdr : KHeader) (stake : Int) (hn : 1 ≤ hdr.number) :
    (((aeposComputeKernel (some p) stake hdr).errK = true →
        aeposComputeKernel (some p) stake hdr = ⟨0, 0, true⟩ ∧
        ∀ u, u ≤ 60 → aeposKernelOk p hdr stake u = false) ∧
      ((aeposComputeKernel (some p) stake hdr).errK = false →
        (aeposComputeKernel (some p) stake hdr).tstamp ≤ 60 ∧
        aeposKernelOk p hdr stake (aeposComputeKernel (some p) stake hdr).tstamp = true ∧
        (∀ u, (aeposComputeKernel (some p) stake hdr).tstamp < u → u ≤ 60 →
          aeposKernelOk p hdr stake u = false) ∧
        (aeposComputeKernel (some p) stake hdr).hash =
          beToNat (aeposDigest p hdr (aeposComputeKernel (some p) stake hdr).tstamp))) ∧
    (((sproutsComputeKernel (some p) stake hdr).errK = true →
        sproutsComputeKernel (some p) stake hdr = ⟨0, 0, true⟩ ∧
        ∀ u, u < 60 → sproutsKernelOk p hdr stake u = false) ∧
      ((sproutsComputeKernel (some p) stake hdr).errK = false →
        (sproutsComputeKernel (some p) stake hdr).tstamp < 60 ∧
        sproutsKernelOk p hdr stake (sproutsComputeKernel (some p) stake hdr).tstamp = true ∧
        (∀ u, u < (sproutsComputeKernel (some p) stake hdr).tstamp →
          sproutsKernelOk p hdr stake u = false) ∧
        (sproutsComputeKernel (some p) stake hdr).hash =
          beToNat (sproutsDigest p hdr (sproutsComputeKernel (some p) stake hdr).tstamp))) := by
  have hno : ¬ (hdr.number < 1) := by omega
  have hae : aeposComputeKernel (some p) stake hdr = aeposKernelGo p hdr stake 60 := by
    simp [aeposComputeKernel, hno]
  have hsp : sproutsComputeKernel (some p) stake hdr = sproutsKernelGo p hdr stake 60 0 := by
    simp [sproutsComputeKernel, hno]
  rw [hae, hsp]
  refine ⟨aeposKernelGo_char p hdr stake 60, ?_, ?_⟩
  · intro herr
    obtain ⟨h1, h2⟩ := (sproutsKernelGo_char p hdr stake 60 0).1 herr
    exact ⟨h1, fun u hu => h2 u (by omega) (by omega)⟩
  · intro hf
    obtain ⟨h1, h2, h3, h4, h5⟩ := (sproutsKernelGo_char p hdr stake 60 0).2 hf
    exact ⟨by omega, h3, fun u hu => h4 u (by omega) hu, h5⟩

set_option maxRecDepth 100000 in
/-- Witness for C1 at a concrete header (stake 0: no offset qualifies and
both variants report `NoKernel` with offset 0). -/
theorem computeKernel_first_offset_witness :
    1 ≤ (⟨1, 0, 0⟩ : KHeader).number ∧
    ((((aeposComputeKernel (some ⟨0, 0, 0⟩) 0 ⟨1, 0, 0⟩).errK = true →
        aeposComputeKernel (some ⟨0, 0, 0⟩) 0 ⟨1, 0, 0⟩ = ⟨0, 0, true⟩ ∧
        ∀ u, u ≤ 60 → aeposKernelOk ⟨0, 0, 0⟩ ⟨1, 0, 0⟩ 0 u = false) ∧
      ((aeposComputeKernel (some ⟨0, 0, 0⟩) 0 ⟨1, 0, 0⟩).errK = false →
        (aeposComputeKernel (some ⟨0, 0, 0⟩) 0 ⟨1, 0, 0⟩).tstamp ≤ 60 ∧
        aeposKernelOk ⟨0, 0, 0⟩ ⟨1, 0, 0⟩ 0 (aeposComputeKernel (some ⟨0, 0, 0⟩) 0 ⟨1, 0, 0⟩).tstamp = true ∧
        (∀ u, (aeposComputeKernel (some ⟨0, 0, 0⟩) 0 ⟨1, 0, 0⟩).tstamp < u → u ≤ 60 →
          aeposKernelOk ⟨0, 0, 0⟩ ⟨1, 0, 0⟩ 0 u = false) ∧
        (aeposComputeKernel (some ⟨0, 0, 0⟩) 0 ⟨1, 0, 0⟩).hash =
          beToNat (aeposDigest ⟨0, 0, 0⟩ ⟨1, 0, 0⟩ (aeposComputeKernel (some ⟨0, 0, 0⟩) 0 ⟨1, 0, 0⟩).tstamp))) ∧
    (((sproutsComputeKernel (some ⟨0, 0, 0⟩) 0 ⟨1, 0, 0⟩).errK = true →
        sproutsComputeKernel (some ⟨0, 0, 0⟩) 0 ⟨1, 0, 0⟩ = ⟨0, 0, true⟩ ∧
        ∀ u, u < 60 → sproutsKernelOk ⟨0, 0, 0⟩ ⟨1, 0, 0⟩ 0 u = false) ∧
      ((sproutsComputeKernel (some ⟨0, 0, 0⟩) 0 ⟨1, 0, 0⟩).errK = false →
        (sproutsComputeKernel (some ⟨0, 0, 0⟩) 0 ⟨1, 0, 0⟩).tstamp < 60 ∧
        sproutsKernelOk ⟨0, 0, 0⟩ ⟨1, 0, 0⟩ 0 (sproutsComputeKernel (some ⟨0, 0, 0⟩) 0 ⟨1, 0, 0⟩).tstamp = true ∧
        (∀ u, u < (sproutsComputeKernel (some ⟨0, 0, 0⟩) 0 ⟨1, 0, 0⟩).tstamp →
          sproutsKernelOk ⟨0, 0, 0⟩ ⟨1, 0, 0⟩ 0 u = false) ∧
        (sproutsComputeKernel (some ⟨0, 0, 0⟩) 0 ⟨1, 0, 0⟩).hash =
          beToNat (sproutsDigest ⟨0, 0, 0⟩ ⟨1, 0, 0⟩ (sproutsComputeKernel (some ⟨0, 0, 0⟩) 0 ⟨1, 0, 0⟩).tstamp)))) :=
  ⟨by decide, computeKernel_first_offset ⟨0, 0, 0⟩ ⟨1, 0, 0⟩ 0 (by decide)⟩

set_option maxRecDepth 100000 in
set_option maxHeartbeats 2000000 in
/-- C1 counterexample: previous header at time 0, candidate header at time
1 000 000 010 with difficulty 1, stake age 4 444 444 444 444 444 444 444 444.
With the claimed clamp of 90 days in SECONDS the target is 399 999 999 and
the first qualifying offset scanning down from 60 is 55; the code clamps at
90 days in NANOSECONDS (here no clamp fires at all, the raw ~10^9-second
time weight is used), gets a target above 2^32, and accepts offset 60
immediately. The two results differ in offset and digest. -/
theorem computeKernel_seconds_clamp_cex :
    aeposComputeKernel (some ⟨0, 0, 1⟩) 4444444444444444444444444 ⟨1, 1000000010, 1⟩ =
      ⟨23342263294261133371493265549200475439002456163567448002962887599807138354167,
        60, false⟩ ∧
    claimComputeKernel ⟨0, 0, 1⟩ ⟨1, 1000000010, 1⟩ 4444444444444444444444444 =
      ⟨6055013104142916941924237571786508112845616937940881192244408685548010569808,
        55, false⟩ ∧
    aeposComputeKernel (some ⟨0, 0, 1⟩) 4444444444444444444444444 ⟨1, 1000000010, 1⟩ ≠
      claimComputeKernel ⟨0, 0, 1⟩ ⟨1, 1000000010, 1⟩ 4444444444444444444444444 := by
  have hA : aeposComputeKernel (some ⟨0, 0, 1⟩) 4444444444444444444444444 ⟨1, 1000000010, 1⟩ =
      ⟨23342263294261133371493265549200475439002456163567448002962887599807138354167,
        60, false⟩ := by decide
  have hC : claimComputeKernel ⟨0, 0, 1⟩ ⟨1, 1000000010, 1⟩ 4444444444444444444444444 =
      ⟨6055013104142916941924237571786508112845616937940881192244408685548010569808,
        55, false⟩ := by decide
  refine ⟨hA, hC, ?_⟩
  rw [hA, hC]
  decide
